import Mathlib

/-!
# picapture: colour and shape inspection loop

A shallow embedding of `src/Assignment2/picapture/src/main.cpp`.

Conventions of the embedding.

* A C++ `double` that holds a finite value is modelled by the rational number
  it denotes (`ℚ`).  Sums, differences, products and quotients of finite values
  are taken exactly; the rounding of the individual operations is not modelled.
  The literals `0.9` and `1.0` are the rationals `9/10` and `1`.
* A C++ `int` is modelled by `Int`; every `int` the program computes from its
  inputs stays far inside the 32-bit range (frame sizes, 8-bit means, a frame
  counter below 31), so no wrap-around occurs.
* The results of the OpenCV calls (`cvtColor`, `findContours`, `arcLength`,
  `contourArea`, `approxPolyDP`) and of `gettimeofday` are inputs of the model.
  `inRange`, `bitwise_or`, `bitwise_not`, `copyTo`, `mean` and the region check
  of `Mat::operator()(Rect)` are modelled after the OpenCV documentation.
* A double division by zero raises no error: it gives NaN or an infinity
  (`Dbl`), and every comparison with NaN is false.
-/

namespace PiCapture

/-! ## Colour naming -/

/-- A `cv::Scalar`: four doubles. -/
structure Scalar where
  val0 : ℚ
  val1 : ℚ
  val2 : ℚ
  val3 : ℚ
deriving DecidableEq

/-- The conversion `static_cast<int>(x)` of a double: the fractional part is
discarded (truncation toward zero).  C++ defines it only when the truncated
value fits an `int`. -/
def staticCastInt (x : ℚ) : Int :=
  if 0 ≤ x then ⌊x⌋ else ⌈x⌉

/-- `detectColor(cv::Scalar hsv)`, main.cpp lines 11-39. -/
def detectColor (hsv : Scalar) : String :=
  let h := staticCastInt hsv.val0
  let s := staticCastInt hsv.val1
  let v := staticCastInt hsv.val2
  if s < 40 then "Gray"
  else if v < 40 then "Black"
  else if h ≥ 0 ∧ h ≤ 25 then "Red"
  else if h > 25 ∧ h ≤ 55 then "Yellow"
  else if h > 55 ∧ h ≤ 85 then "Green"
  else if h > 85 ∧ h ≤ 150 then "Blue"
  else if h > 150 ∧ h ≤ 320 then "Red"
  else "Unknown"

/-- The scalar whose first three components are the integers `h`, `s`, `v`. -/
def Scalar.ofInts (h s v : Int) : Scalar := ⟨h, s, v, 0⟩

/-- The label set of the specification. -/
def colorLabels : List String :=
  ["Red", "Yellow", "Green", "Blue", "Gray", "Black", "Unknown"]

/-- The ordered rule table of the specification (section 4.3): each rule is a
predicate on `(h, s, v)` and the label it gives. -/
def colorRules : List ((Int → Int → Int → Bool) × String) :=
  [ (fun _ s _ => decide (s < 40), "Gray"),
    (fun _ _ v => decide (v < 40), "Black"),
    (fun h _ _ => decide (0 ≤ h ∧ h ≤ 25), "Red"),
    (fun h _ _ => decide (25 < h ∧ h ≤ 55), "Yellow"),
    (fun h _ _ => decide (55 < h ∧ h ≤ 85), "Green"),
    (fun h _ _ => decide (85 < h ∧ h ≤ 150), "Blue"),
    (fun h _ _ => decide (150 < h ∧ h ≤ 320), "Red") ]

/-- First match wins: the label of the first rule of the table whose predicate
holds, and `Unknown` when none does. -/
def firstMatch : List ((Int → Int → Int → Bool) × String) → Int → Int → Int → String
  | [], _, _, _ => "Unknown"
  | r :: rest, h, s, v => if r.1 h s v then r.2 else firstMatch rest h s v

/-- The integer `n` is `x` with its fractional part discarded. -/
def IsTruncation (x : ℚ) (n : Int) : Prop :=
  (0 ≤ x → (n : ℚ) ≤ x ∧ x < n + 1) ∧ (x < 0 → (n : ℚ) - 1 < x ∧ x ≤ n)

/-- The double `x` lies in the range of a 32-bit `int`. -/
def inIntRange (x : ℚ) : Prop :=
  -2147483648 ≤ x ∧ x ≤ 2147483647

/-! ## Central box -/

/-- The side of the central box, `int boxSize = 200` (line 135). -/
def boxSize : Int := 200

/-- Lines 137-138: `startX = (width - boxSize) / 2` and
`startY = (height - boxSize) / 2`; the division of two `int`s truncates toward
zero. -/
def centralBoxOrigin (width height boxSize : Int) : Int × Int :=
  (Int.tdiv (width - boxSize) 2, Int.tdiv (height - boxSize) 2)

/-- A `cv::Rect`. -/
structure Rect where
  x : Int
  y : Int
  width : Int
  height : Int
deriving DecidableEq

/-- The region check of `Mat::operator()(const Rect& roi)` on a matrix with
`rows` rows and `cols` columns; when it fails a `cv::Exception` is thrown. -/
def roiInside (rows cols : Int) (roi : Rect) : Bool :=
  decide (0 ≤ roi.x ∧ 0 ≤ roi.width ∧ roi.x + roi.width ≤ cols
    ∧ 0 ≤ roi.y ∧ 0 ≤ roi.height ∧ roi.y + roi.height ≤ rows)

/-! ## Colour profile of the central box -/

/-- One pixel of an 8-bit HSV image: hue, saturation, value. -/
structure Pixel where
  h : Nat
  s : Nat
  v : Nat
deriving DecidableEq

/-- An image is the list of its pixels in row-major order; a mask is the list
of its 8-bit entries in the same order. -/
abbrev Image := List Pixel

/-- The scalar bounds of `inRange`, one per channel. -/
structure Bounds where
  c0 : Nat
  c1 : Nat
  c2 : Nat

/-- `cv::inRange(src, lowerb, upperb, dst)`: the entry is 255 when every
channel lies between its two bounds, both bounds included, and 0 otherwise. -/
def inRange (src : Image) (lowerb upperb : Bounds) : List Nat :=
  src.map fun p =>
    if lowerb.c0 ≤ p.h ∧ p.h ≤ upperb.c0 ∧ lowerb.c1 ≤ p.s ∧ p.s ≤ upperb.c1
        ∧ lowerb.c2 ≤ p.v ∧ p.v ≤ upperb.c2 then 255 else 0

/-- `cv::bitwise_or` of two masks. -/
def bitwise_or (a b : List Nat) : List Nat :=
  List.zipWith (fun x y => x ||| y) a b

/-- `cv::bitwise_not` of an 8-bit mask: every bit of every entry is flipped. -/
def bitwise_not (a : List Nat) : List Nat :=
  a.map fun x => x ^^^ 255

/-- `src.copyTo(dst, mask)` into a fresh matrix: the pixels whose mask entry
is non-zero are copied, the others are zero. -/
def copyTo (src : Image) (mask : List Nat) : Image :=
  List.zipWith (fun p m => if m ≠ 0 then p else ⟨0, 0, 0⟩) src mask

/-- The pixels of `src` whose mask entry is non-zero. -/
def selected (src : Image) (mask : List Nat) : Image :=
  ((src.zip mask).filter fun pm => pm.2 ≠ 0).map Prod.fst

/-- The channel means of a list of pixels; the zero scalar for no pixel. -/
def average (px : Image) : Scalar :=
  if px.length = 0 then ⟨0, 0, 0, 0⟩
  else ⟨((px.map Pixel.h).sum : ℚ) / px.length, ((px.map Pixel.s).sum : ℚ) / px.length,
        ((px.map Pixel.v).sum : ℚ) / px.length, 0⟩

/-- `cv::mean(src, mask)`: the mean of each channel over the pixels whose mask
entry is non-zero; when all the mask entries are zero it is `Scalar::all(0)`. -/
def mean (src : Image) (mask : List Nat) : Scalar :=
  average (selected src mask)

/-- Lines 150-153 and 157: the mask of the pixels taken for white or black. -/
def combinedMask (hsvBox : Image) : List Nat :=
  let whiteMask := inRange hsvBox ⟨0, 0, 200⟩ ⟨180, 40, 255⟩
  let blackMask := inRange hsvBox ⟨0, 0, 0⟩ ⟨180, 255, 50⟩
  bitwise_or whiteMask blackMask

/-- Line 161: the inverted mask. -/
def nonWhiteBlackMask (hsvBox : Image) : List Nat :=
  bitwise_not (combinedMask hsvBox)

/-- Lines 163-168: the mean HSV value of the central box over the pixels of
the inverted mask. -/
def meanHSV (hsvBox : Image) : Scalar :=
  let filteredHSV := copyTo hsvBox (nonWhiteBlackMask hsvBox)
  mean filteredHSV (nonWhiteBlackMask hsvBox)

/-- The exclusion rule the masks of lines 152-153 compute for one pixel: the
bounds of `inRange` are inclusive. -/
def excludedByMasks (p : Pixel) : Bool :=
  decide ((p.h ≤ 180 ∧ p.s ≤ 40 ∧ 200 ≤ p.v ∧ p.v ≤ 255)
    ∨ (p.h ≤ 180 ∧ p.s ≤ 255 ∧ p.v ≤ 50))

/-- The exclusion rule as the specification words it: near-white is
saturation below 40 and value above 200, near-black is value below 50. -/
def specExcluded (p : Pixel) : Prop :=
  (p.s < 40 ∧ p.v > 200) ∨ p.v < 50

/-- A pixel an 8-bit HSV conversion can produce: hue in `[0, 180)`, saturation
and value in `[0, 255]`. -/
def Pixel.valid (p : Pixel) : Prop :=
  p.h < 180 ∧ p.s ≤ 255 ∧ p.v ≤ 255

/-- A central box of 200 x 200 valid pixels: 10000 pixels of saturation 40 and
value 200, 10000 pixels of value 50, and 20000 pixels of hue 20, saturation
100 and value 100. -/
def boundaryBox : Image :=
  List.replicate 10000 ⟨10, 40, 200⟩ ++ (List.replicate 10000 ⟨10, 100, 50⟩
    ++ List.replicate 20000 ⟨20, 100, 100⟩)

/-! ## Shapes -/

/-- The value of a `double` expression: a finite value, an infinity or NaN. -/
inductive Dbl where
  | fin (q : ℚ)
  | inf (negative : Bool)
  | nan
deriving DecidableEq

/-- The quotient `a / b` of two finite doubles in IEEE arithmetic: a zero
divisor raises no error, it gives NaN for `0 / 0` and an infinity otherwise. -/
def Dbl.div (a b : ℚ) : Dbl :=
  if b = 0 then (if a = 0 then Dbl.nan else Dbl.inf (decide (a < 0)))
  else Dbl.fin (a / b)

/-- The comparison `c > t` with a finite `t`; it is false for NaN. -/
def Dbl.gt (c : Dbl) (t : ℚ) : Bool :=
  match c with
  | Dbl.fin q => decide (q > t)
  | Dbl.inf negative => !negative
  | Dbl.nan => false

/-- The constant `M_PI` of `math.h`, the double nearest to pi. -/
def M_PI : ℚ := 884279719003555 / 281474976710656

/-- What the OpenCV calls of lines 60-64 return for one contour. -/
structure Contour where
  /-- The value `arcLength(contours[i], true)`. -/
  perimeter : ℚ
  /-- The value `contourArea(contours[i])`. -/
  area : ℚ
  /-- The value `approx.size()` after `approxPolyDP`. -/
  approxSize : Nat
deriving DecidableEq

/-- The two strings printed for a contour (lines 85-86). -/
structure ShapeRecord where
  shape : String
  part : String
deriving DecidableEq

/-- Line 67: `circularity = (4 * M_PI * area) / (perimeter * perimeter)`. -/
def circularity (area perimeter : ℚ) : Dbl :=
  Dbl.div (4 * M_PI * area) (perimeter * perimeter)

/-- Lines 70-83: the shape and part strings from the circularity and the
number of vertices of the approximated polygon. -/
def classifyShape (circularity : Dbl) (vertices : Int) : ShapeRecord :=
  if circularity.gt (9 / 10) then ⟨"Circle", "Good part"⟩
  else if vertices = 3 then ⟨"Triangle", "Good part"⟩
  else if vertices = 4 then ⟨"Square", "Good part"⟩
  else if vertices = 6 then ⟨"Hexagon", "Good part"⟩
  else ⟨"No shape detected", "Bad part"⟩

/-- `identifyShapes`, lines 57-89: the loop over the contours; the result is
the list of the records printed, in order. -/
def identifyShapes (contours : List Contour) : List ShapeRecord :=
  contours.map fun c =>
    classifyShape (circularity c.area c.perimeter) (c.approxSize : Int)

/-! ## The inspection loop -/

/-- A `timeval` as filled by `gettimeofday`. -/
structure timeval where
  tv_sec : Int
  tv_usec : Int
deriving DecidableEq

/-- The variables of `main` that live across iterations (lines 113-118). -/
structure LoopState where
  frame_id : Int
  start : timeval
  last_detection_time : ℚ
deriving DecidableEq

/-- What one iteration obtains from the camera, the library and the clock. -/
structure FrameData where
  /-- The value `frame.rows`. -/
  rows : Int
  /-- The value `frame.cols`. -/
  cols : Int
  /-- The HSV conversion of the central box (line 148). -/
  hsvBox : Image
  /-- The contours `findContours` gives for the central box, with their
  measures. -/
  contours : List Contour
  /-- The clock read at line 171. -/
  clock : timeval
  /-- The clock read at line 195, read only when the window is complete. -/
  clockReport : timeval
  /-- The clock read at line 199, read only when the window is complete. -/
  clockRestart : timeval

/-- A line written to the console. -/
inductive Output where
  | detectedColor (name : String)
  | detectedShape (record : ShapeRecord)
  | frameRate (diff : ℚ) (fps : Dbl)
  | couldNotRead
deriving DecidableEq

/-- The state at line 118. -/
def initialState (start : timeval) : LoopState := ⟨0, start, 0⟩

/-- Line 172: `current_time = end.tv_sec + end.tv_usec / 1000000.0`. -/
def currentTime (t : timeval) : ℚ :=
  t.tv_sec + t.tv_usec / 1000000

/-- Lines 174-187: colour and shape detection, run when at least one second
has passed since the last run; gives the new `last_detection_time` and the
lines printed. -/
def detectionStep (last_detection_time : ℚ) (f : FrameData) : ℚ × List Output :=
  let current_time := currentTime f.clock
  if current_time - last_detection_time ≥ 1 then
    let colorName := detectColor (meanHSV f.hsvBox)
    (current_time,
      Output.detectedColor colorName :: (identifyShapes f.contours).map Output.detectedShape)
  else (last_detection_time, [])

/-- Lines 192-200: the frame counter and the report of every 30 frames; gives
the new `frame_id` and `start` and the line printed, if any. -/
def frameRateStep (frame_id : Int) (start : timeval) (f : FrameData) :
    Int × timeval × List Output :=
  let frame_id := frame_id + 1
  if frame_id ≥ 30 then
    let diff : ℚ := f.clockReport.tv_sec - start.tv_sec
      + (f.clockReport.tv_usec - start.tv_usec) / 1000000
    (0, f.clockRestart, [Output.frameRate diff (Dbl.div 30 diff)])
  else (frame_id, start, [])

/-- One iteration of `for(;;)` after a successful read (lines 126-200):
`none` when cropping the central box throws, otherwise the new state and the
lines printed. -/
def loopBody (s : LoopState) (f : FrameData) : Option (LoopState × List Output) :=
  let height := f.rows
  let width := f.cols
  let origin := centralBoxOrigin width height boxSize
  let roi : Rect := ⟨origin.1, origin.2, boxSize, boxSize⟩
  if roiInside f.rows f.cols roi then
    let d := detectionStep s.last_detection_time f
    let r := frameRateStep s.frame_id s.start f
    some (⟨r.1, r.2.1, d.1⟩, d.2 ++ r.2.2)
  else none

/-- The loop of `main` over the results of the successive `cap.read` calls
(`none` is a failed read): the state when the loop is left and the lines
printed by each iteration.  The loop is left at the first failed read, and the
program ends when cropping throws. -/
def mainLoop (s : LoopState) : List (Option FrameData) → LoopState × List (List Output)
  | [] => (s, [])
  | none :: _ => (s, [[Output.couldNotRead]])
  | some f :: rest =>
    match loopBody s f with
    | none => (s, [])
    | some (s1, out) =>
      let r := mainLoop s1 rest
      (r.1, out :: r.2)

/-- Whether an iteration printed a colour, that is, ran the classification. -/
def ranDetection (out : List Output) : Bool :=
  out.any fun o => match o with
    | Output.detectedColor _ => true
    | _ => false

/-- Whether an iteration printed the frame-rate report. -/
def reportedFrameRate (out : List Output) : Bool :=
  out.any fun o => match o with
    | Output.frameRate _ _ => true
    | _ => false

/-- The timestamps of the frames whose iteration ran the classification. -/
def detectionTimes (frames : List FrameData) (outs : List (List Output)) : List ℚ :=
  ((frames.zip outs).filter fun p => ranDetection p.2).map fun p => currentTime p.1.clock

/-- A frame that is at least as large as the central box. -/
def FrameData.fits (f : FrameData) : Prop :=
  boxSize ≤ f.cols ∧ boxSize ≤ f.rows

/-- A frame of 400 x 300 whose central box is all white (saturation 0, value
255) and has no contour, read a quarter of a second after the epoch second
1700000000. -/
def whiteFrame : FrameData :=
  ⟨300, 400, List.replicate 40000 ⟨0, 0, 255⟩, [], ⟨1700000000, 250000⟩,
    ⟨1700000000, 250000⟩, ⟨1700000000, 250000⟩⟩

/-- The lines of an iteration other than the frame-rate report. -/
def classificationLines (out : List Output) : List Output :=
  out.filter fun o => match o with
    | Output.frameRate _ _ => false
    | _ => true

/-- The lines one run of the classification prints for a frame (lines 177-183):
the colour name of the mean of the central box, then one shape record for each
contour, in order. -/
def classificationOf (f : FrameData) : List Output :=
  Output.detectedColor (detectColor (meanHSV f.hsvBox))
    :: f.contours.map fun c =>
        Output.detectedShape (classifyShape (circularity c.area c.perimeter) (c.approxSize : Int))

/-- A frame of 400 x 300 with the central box `boundaryBox` and one square
contour (perimeter 400, area 10000, four vertices), read at the given clock
value. -/
def frameAt (clock : timeval) : FrameData :=
  ⟨300, 400, boundaryBox, [⟨400, 10000, 4⟩], clock, clock, clock⟩

/-- Three frames read 0.25 s, 0.75 s and 1.30 s after the epoch second
1700000000. -/
def sampleFrames : List FrameData :=
  [frameAt ⟨1700000000, 250000⟩, frameAt ⟨1700000000, 750000⟩, frameAt ⟨1700000001, 300000⟩]

/-! ## Theorems -/

theorem staticCastInt_intCast (n : Int) : staticCastInt (n : ℚ) = n := by
  unfold staticCastInt
  split <;> simp

theorem staticCastInt_of_isTruncation {x : ℚ} {n : Int} (h : IsTruncation x n) :
    staticCastInt x = n := by
  unfold staticCastInt
  split
  · rename_i hx
    obtain ⟨h1, h2⟩ := h.1 hx
    exact Int.floor_eq_iff.mpr ⟨h1, h2⟩
  · rename_i hx
    obtain ⟨h1, h2⟩ := h.2 (not_le.mp hx)
    exact Int.ceil_eq_iff.mpr ⟨h1, h2⟩

theorem detectColor_ofInts (h s v : Int) :
    detectColor (Scalar.ofInts h s v) =
      if s < 40 then "Gray"
      else if v < 40 then "Black"
      else if h ≥ 0 ∧ h ≤ 25 then "Red"
      else if h > 25 ∧ h ≤ 55 then "Yellow"
      else if h > 55 ∧ h ≤ 85 then "Green"
      else if h > 85 ∧ h ≤ 150 then "Blue"
      else if h > 150 ∧ h ≤ 320 then "Red"
      else "Unknown" := by
  simp only [detectColor, Scalar.ofInts, staticCastInt_intCast]

/-- C1: on an integer descriptor `detectColor` returns the label of the first
matching rule of the ordered table (Gray, Black, Red, Yellow, Green, Blue, Red,
else Unknown), which is one of the seven labels; the four sample descriptors
give Red, Green, Gray and Black. -/
theorem detectColor_first_match (h s v : Int) :
    detectColor (Scalar.ofInts h s v) = firstMatch colorRules h s v
    ∧ detectColor (Scalar.ofInts h s v) ∈ colorLabels
    ∧ detectColor (Scalar.ofInts 10 100 100) = "Red"
    ∧ detectColor (Scalar.ofInts 70 100 100) = "Green"
    ∧ detectColor (Scalar.ofInts 30 20 100) = "Gray"
    ∧ detectColor (Scalar.ofInts 0 100 20) = "Black" := by
  refine ⟨?_, ?_, ?_, ?_, ?_, ?_⟩
  · rw [detectColor_ofInts]
    simp only [colorRules, firstMatch, decide_eq_true_eq]
  · rw [detectColor_ofInts]
    simp only [colorLabels]
    split_ifs <;> simp
  · rw [detectColor_ofInts]; decide
  · rw [detectColor_ofInts]; decide
  · rw [detectColor_ofInts]; decide
  · rw [detectColor_ofInts]; decide

/-- C9: on an integer descriptor the result is Unknown exactly when `s ≥ 40`,
`v ≥ 40` and the hue is below 0 or above 320; for a hue in `[0, 180)` it is one
of Red, Yellow, Green, Blue, Gray, Black, and a hue strictly between 150 and
180 with `s ≥ 40` and `v ≥ 40` is Red. -/
theorem detectColor_unknown_iff (h s v : Int) :
    (detectColor (Scalar.ofInts h s v) = "Unknown" ↔ 40 ≤ s ∧ 40 ≤ v ∧ (h < 0 ∨ 320 < h))
    ∧ (0 ≤ h ∧ h < 180 →
        detectColor (Scalar.ofInts h s v) ∈ ["Red", "Yellow", "Green", "Blue", "Gray", "Black"])
    ∧ (150 < h ∧ h < 180 → 40 ≤ s → 40 ≤ v → detectColor (Scalar.ofInts h s v) = "Red") := by
  rw [detectColor_ofInts]
  refine ⟨?_, ?_, ?_⟩
  · split_ifs <;> simp <;> omega
  · intro hh
    split_ifs <;> first | decide | (exfalso; omega)
  · intro hh hs hv
    split_ifs <;> first | rfl | omega

theorem detectColor_unknown_iff_witness :
    (0 ≤ (160 : Int) ∧ (160 : Int) < 180 →
        detectColor (Scalar.ofInts 160 100 100)
          ∈ ["Red", "Yellow", "Green", "Blue", "Gray", "Black"])
    ∧ detectColor (Scalar.ofInts 160 100 100) = "Red" :=
  ⟨(detectColor_unknown_iff 160 100 100).2.1,
   (detectColor_unknown_iff 160 100 100).2.2 (by decide) (by decide) (by decide)⟩

/-- C10: `detectColor` classifies a descriptor with fractional components, each
in the `int` range, as it classifies the descriptor of the components truncated
toward zero, and the truncated components are `int`s; so a hue strictly between
25 and 26 (with `s ≥ 40`, `v ≥ 40`) is Red, a saturation strictly between 39
and 40 is Gray, and a hue strictly between -1 and 0 (with `s ≥ 40`, `v ≥ 40`)
is Red. -/
theorem detectColor_truncates (hsv : Scalar) (h s v : Int)
    (hr : inIntRange hsv.val0 ∧ inIntRange hsv.val1 ∧ inIntRange hsv.val2)
    (hh : IsTruncation hsv.val0 h) (hs : IsTruncation hsv.val1 s)
    (hv : IsTruncation hsv.val2 v) :
    detectColor hsv = detectColor (Scalar.ofInts h s v)
    ∧ (-2147483648 ≤ h ∧ h ≤ 2147483647 ∧ -2147483648 ≤ s ∧ s ≤ 2147483647
        ∧ -2147483648 ≤ v ∧ v ≤ 2147483647)
    ∧ (25 < hsv.val0 ∧ hsv.val0 < 26 → 40 ≤ hsv.val1 → 40 ≤ hsv.val2 →
        detectColor hsv = "Red")
    ∧ (39 < hsv.val1 ∧ hsv.val1 < 40 → detectColor hsv = "Gray")
    ∧ (-1 < hsv.val0 ∧ hsv.val0 < 0 → 40 ≤ hsv.val1 → 40 ≤ hsv.val2 →
        detectColor hsv = "Red") := by
  have e : detectColor hsv = detectColor (Scalar.ofInts h s v) := by
    simp only [detectColor, Scalar.ofInts, staticCastInt_intCast,
      staticCastInt_of_isTruncation hh, staticCastInt_of_isTruncation hs,
      staticCastInt_of_isTruncation hv]
  have hs40 : 40 ≤ hsv.val1 → 40 ≤ s := fun h1 => by
    have := (hs.1 (by linarith)).2
    have h2 : ((40 : Int) : ℚ) < ((s + 1 : Int) : ℚ) := by push_cast; linarith
    have := Int.cast_lt.mp h2
    omega
  have hv40 : 40 ≤ hsv.val2 → 40 ≤ v := fun h1 => by
    have := (hv.1 (by linarith)).2
    have h2 : ((40 : Int) : ℚ) < ((v + 1 : Int) : ℚ) := by push_cast; linarith
    have := Int.cast_lt.mp h2
    omega
  refine ⟨e, ?_, ?_, ?_, ?_⟩
  · obtain ⟨⟨a0, b0⟩, ⟨a1, b1⟩, ⟨a2, b2⟩⟩ := hr
    have key : ∀ (x : ℚ) (n : Int), IsTruncation x n → -2147483648 ≤ x → x ≤ 2147483647 →
        -2147483648 ≤ n ∧ n ≤ 2147483647 := by
      intro x n hn lo hi
      rcases le_or_lt 0 x with hx | hx
      · obtain ⟨c1, c2⟩ := hn.1 hx
        have d1 : ((-1 : Int) : ℚ) < ((n + 1 : Int) : ℚ) := by push_cast; linarith
        have d2 : ((n : Int) : ℚ) ≤ ((2147483647 : Int) : ℚ) := by push_cast; linarith
        have := Int.cast_lt.mp d1
        have := Int.cast_le.mp d2
        omega
      · obtain ⟨c1, c2⟩ := hn.2 hx
        have d1 : ((-2147483648 : Int) : ℚ) ≤ ((n : Int) : ℚ) := by push_cast; linarith
        have d2 : ((n - 1 : Int) : ℚ) < ((0 : Int) : ℚ) := by push_cast; linarith
        have := Int.cast_le.mp d1
        have := Int.cast_lt.mp d2
        omega
    have k0 := key _ _ hh a0 b0
    have k1 := key _ _ hs a1 b1
    have k2 := key _ _ hv a2 b2
    omega
  · rintro ⟨l, u⟩ h1 h2
    have hs1 := hs40 h1
    have hv1 := hv40 h2
    obtain ⟨c1, c2⟩ := hh.1 (by linarith)
    have d1 : ((h : Int) : ℚ) < ((26 : Int) : ℚ) := by push_cast; linarith
    have d2 : ((25 : Int) : ℚ) < ((h + 1 : Int) : ℚ) := by push_cast; linarith
    have := Int.cast_lt.mp d1
    have := Int.cast_lt.mp d2
    have hh25 : h = 25 := by omega
    subst hh25
    rw [e, detectColor_ofInts]
    split_ifs <;> first | rfl | omega
  · rintro ⟨l, u⟩
    obtain ⟨c1, c2⟩ := hs.1 (by linarith)
    have d1 : ((s : Int) : ℚ) < ((40 : Int) : ℚ) := by push_cast; linarith
    have hs39 : s < 40 := Int.cast_lt.mp d1
    rw [e, detectColor_ofInts, if_pos hs39]
  · rintro ⟨l, u⟩ h1 h2
    have hs1 := hs40 h1
    have hv1 := hv40 h2
    obtain ⟨c1, c2⟩ := hh.2 u
    have d1 : ((h - 1 : Int) : ℚ) < ((0 : Int) : ℚ) := by push_cast; linarith
    have d2 : ((-1 : Int) : ℚ) < ((h : Int) : ℚ) := by push_cast; linarith
    have := Int.cast_lt.mp d1
    have := Int.cast_lt.mp d2
    have hh0 : h = 0 := by omega
    subst hh0
    rw [e, detectColor_ofInts]
    split_ifs <;> first | rfl | omega

theorem detectColor_truncates_witness :
    detectColor ⟨51 / 2, 100, 100, 0⟩ = detectColor (Scalar.ofInts 25 100 100)
    ∧ detectColor ⟨51 / 2, 100, 100, 0⟩ = "Red" := by
  have t := detectColor_truncates ⟨51 / 2, 100, 100, 0⟩ 25 100 100
    (by simp only [inIntRange]; norm_num)
    (by simp only [IsTruncation]; norm_num)
    (by simp only [IsTruncation]; norm_num)
    (by simp only [IsTruncation]; norm_num)
  exact ⟨t.1, t.2.2.1 (by norm_num) (by norm_num) (by norm_num)⟩

/-- C2: for a box size `b` with `0 ≤ b ≤ min w h` the crop origin
`((w - b) / 2, (h - b) / 2)` gives a rectangle inside the frame (it passes the
region check of the crop), and the margins left and right, and top and bottom,
differ by at most 1. -/
theorem centralBoxOrigin_inside_centred (w h b : Int) (hb : 0 ≤ b) (hbw : b ≤ min w h) :
    (centralBoxOrigin w h b).1 = (w - b) / 2 ∧ (centralBoxOrigin w h b).2 = (h - b) / 2
    ∧ 0 ≤ (centralBoxOrigin w h b).1 ∧ (centralBoxOrigin w h b).1 + b ≤ w
    ∧ 0 ≤ (centralBoxOrigin w h b).2 ∧ (centralBoxOrigin w h b).2 + b ≤ h
    ∧ roiInside h w ⟨(centralBoxOrigin w h b).1, (centralBoxOrigin w h b).2, b, b⟩ = true
    ∧ |(centralBoxOrigin w h b).1 - (w - ((centralBoxOrigin w h b).1 + b))| ≤ 1
    ∧ |(centralBoxOrigin w h b).2 - (h - ((centralBoxOrigin w h b).2 + b))| ≤ 1 := by
  have hw : b ≤ w := le_trans hbw (min_le_left _ _)
  have hh : b ≤ h := le_trans hbw (min_le_right _ _)
  have ex : Int.tdiv (w - b) 2 = (w - b) / 2 := Int.tdiv_eq_ediv (by omega) (by decide)
  have ey : Int.tdiv (h - b) 2 = (h - b) / 2 := Int.tdiv_eq_ediv (by omega) (by decide)
  simp only [centralBoxOrigin, roiInside, ex, ey, decide_eq_true_eq, abs_le]
  refine ⟨trivial, trivial, by omega, by omega, by omega, by omega,
    ⟨by omega, by omega, by omega, by omega, by omega, by omega⟩,
    ⟨by omega, by omega⟩, by omega, by omega⟩

theorem centralBoxOrigin_inside_centred_witness :
    centralBoxOrigin 400 300 200 = (100, 50)
    ∧ roiInside 300 400 ⟨(centralBoxOrigin 400 300 200).1, (centralBoxOrigin 400 300 200).2,
        200, 200⟩ = true :=
  ⟨by decide, (centralBoxOrigin_inside_centred 400 300 200 (by decide) (by decide)).2.2.2.2.2.2.1⟩

/-- C3: the record of a contour is decided first-match-wins from its
circularity `c` and vertex count `n`: `c > 0.9` gives Circle / Good part
whatever `n` is; otherwise 3, 4 and 6 vertices give Triangle, Square and
Hexagon, each a Good part, and any other count gives No shape detected / Bad
part.  The part is Bad exactly when no shape is detected, and the records of
`identifyShapes` are these records of its contours, in order. -/
theorem classifyShape_first_match (c : Dbl) (n : Int) :
    (c.gt (9 / 10) = true → classifyShape c n = ⟨"Circle", "Good part"⟩)
    ∧ (c.gt (9 / 10) = false → n = 3 → classifyShape c n = ⟨"Triangle", "Good part"⟩)
    ∧ (c.gt (9 / 10) = false → n = 4 → classifyShape c n = ⟨"Square", "Good part"⟩)
    ∧ (c.gt (9 / 10) = false → n = 6 → classifyShape c n = ⟨"Hexagon", "Good part"⟩)
    ∧ (c.gt (9 / 10) = false → n ≠ 3 → n ≠ 4 → n ≠ 6 →
        classifyShape c n = ⟨"No shape detected", "Bad part"⟩)
    ∧ ((classifyShape c n).part = "Bad part" ↔ (classifyShape c n).shape = "No shape detected")
    ∧ (∀ q : ℚ, (Dbl.fin q).gt (9 / 10) = true ↔ q > 9 / 10)
    ∧ (∀ (contours : List Contour) (i : Nat) (k : Contour), contours[i]? = some k →
        (identifyShapes contours)[i]?
          = some (classifyShape (circularity k.area k.perimeter) (k.approxSize : Int))) := by
  refine ⟨?_, ?_, ?_, ?_, ?_, ?_, ?_, ?_⟩
  · intro h
    simp [classifyShape, h]
  · intro h h3
    simp [classifyShape, h, h3]
  · intro h h4
    simp [classifyShape, h, h4]
  · intro h h6
    simp [classifyShape, h, h6]
  · intro h h3 h4 h6
    simp [classifyShape, h, h3, h4, h6]
  · unfold classifyShape
    split_ifs <;> decide
  · intro q
    simp [Dbl.gt]
  · intro contours i k hk
    simp [identifyShapes, hk]

theorem classifyShape_first_match_witness :
    classifyShape (Dbl.fin (19 / 20)) 8 = ⟨"Circle", "Good part"⟩
    ∧ classifyShape (Dbl.fin (1 / 2)) 3 = ⟨"Triangle", "Good part"⟩
    ∧ classifyShape Dbl.nan 5 = ⟨"No shape detected", "Bad part"⟩ :=
  ⟨(classifyShape_first_match (Dbl.fin (19 / 20)) 8).1 (by simp [Dbl.gt]; norm_num),
   (classifyShape_first_match (Dbl.fin (1 / 2)) 3).2.1 (by simp [Dbl.gt]; norm_num) rfl,
   (classifyShape_first_match Dbl.nan 5).2.2.2.2.1 rfl (by decide) (by decide) (by decide)⟩

theorem circularity_zero_zero : circularity 0 0 = Dbl.nan := by
  simp [circularity, Dbl.div]

theorem circularity_zero_perimeter_not_fin (area q : ℚ) : circularity area 0 ≠ Dbl.fin q := by
  unfold circularity Dbl.div
  rw [if_pos (by ring)]
  split <;> simp

/-- C5 as the code has it: `identifyShapes` has no guard on the perimeter.  It
reports one record for every contour, so the number of records is the number
of contours.  For a perimeter of 0 the quotient is never a finite number; for
a contour of perimeter 0 and area 0 it is NaN (no error is raised), the
comparison with 0.9 is false, and the record reported is the one the vertex
count gives. -/
theorem identifyShapes_one_record_per_contour (contours : List Contour) :
    (identifyShapes contours).length = contours.length
    ∧ (∀ area q : ℚ, circularity area 0 ≠ Dbl.fin q)
    ∧ (∀ (i : Nat) (k : Contour), contours[i]? = some k → k.perimeter = 0 → k.area = 0 →
        circularity k.area k.perimeter = Dbl.nan
        ∧ (circularity k.area k.perimeter).gt (9 / 10) = false
        ∧ (identifyShapes contours)[i]? = some (classifyShape Dbl.nan (k.approxSize : Int))) := by
  refine ⟨by simp [identifyShapes], circularity_zero_perimeter_not_fin, ?_⟩
  intro i k hk hp ha
  have hc : circularity k.area k.perimeter = Dbl.nan := by
    rw [hp, ha]; exact circularity_zero_zero
  refine ⟨hc, by rw [hc]; rfl, ?_⟩
  simp [identifyShapes, hk, hc]

theorem identifyShapes_one_record_per_contour_witness :
    (identifyShapes [⟨400, 10000, 4⟩, ⟨0, 0, 1⟩]).length = 2
    ∧ (identifyShapes [⟨400, 10000, 4⟩, ⟨0, 0, 1⟩])[1]?
        = some (classifyShape Dbl.nan 1) :=
  ⟨(identifyShapes_one_record_per_contour [⟨400, 10000, 4⟩, ⟨0, 0, 1⟩]).1,
   ((identifyShapes_one_record_per_contour [⟨400, 10000, 4⟩, ⟨0, 0, 1⟩]).2.2
      1 ⟨0, 0, 1⟩ rfl rfl rfl).2.2⟩

/-- C5 fails as stated: for a square contour followed by a single-point
contour (perimeter 0, area 0, one vertex) two records are reported, the second
for the contour of perimeter 0, while only one contour has a non-zero
perimeter. -/
theorem identifyShapes_reports_zero_perimeter :
    identifyShapes [⟨400, 10000, 4⟩, ⟨0, 0, 1⟩]
      = [⟨"Square", "Good part"⟩, ⟨"No shape detected", "Bad part"⟩]
    ∧ (identifyShapes [⟨400, 10000, 4⟩, ⟨0, 0, 1⟩]).length
        ≠ (([⟨400, 10000, 4⟩, ⟨0, 0, 1⟩] : List Contour).filter
            fun k => decide (k.perimeter ≠ 0)).length := by
  have h1 : circularity 10000 400 = Dbl.fin (M_PI / 4) := by
    unfold circularity Dbl.div
    rw [if_neg (by norm_num)]
    congr 1
    ring
  have h2 : (Dbl.fin (M_PI / 4)).gt (9 / 10) = false := by
    simp only [Dbl.gt, M_PI, decide_eq_false_iff_not]
    norm_num
  have e : identifyShapes [⟨400, 10000, 4⟩, ⟨0, 0, 1⟩]
      = [⟨"Square", "Good part"⟩, ⟨"No shape detected", "Bad part"⟩] := by
    simp only [identifyShapes, List.map, h1, circularity_zero_zero, classifyShape, h2]
    simp [Dbl.gt]
  refine ⟨e, ?_⟩
  rw [e]
  simp

theorem nonWhiteBlackMask_eq_map (hsvBox : Image) :
    nonWhiteBlackMask hsvBox = hsvBox.map fun p => if excludedByMasks p then 0 else 255 := by
  simp only [nonWhiteBlackMask, combinedMask, bitwise_not, bitwise_or, inRange,
    List.zipWith_map, List.zipWith_same, List.map_map]
  apply List.map_congr_left
  intro p _
  simp only [Function.comp, excludedByMasks, decide_eq_true_eq]
  split_ifs <;> first | decide | (exfalso; omega)

theorem selected_copyTo_map (src : Image) (f : Pixel → Nat) :
    selected (copyTo src (src.map f)) (src.map f) = src.filter fun p => decide (f p ≠ 0) := by
  simp only [selected, copyTo, List.zipWith_map_right, List.zipWith_same, List.zip_map',
    List.filter_map, List.map_map]
  induction src with
  | nil => rfl
  | cons p rest ih =>
    by_cases hp : f p = 0
    · simp [List.filter_cons, hp, Function.comp] at ih ⊢
      exact ih
    · simp [List.filter_cons, hp, Function.comp] at ih ⊢
      exact ih

theorem meanHSV_eq_average (hsvBox : Image) :
    meanHSV hsvBox = average (hsvBox.filter fun p => !excludedByMasks p) := by
  simp only [meanHSV, mean, nonWhiteBlackMask_eq_map, selected_copyTo_map]
  congr 1
  apply List.filter_congr
  intro p _
  cases excludedByMasks p <;> simp

theorem excludedByMasks_valid (p : Pixel) (hp : p.valid) :
    excludedByMasks p = true ↔ (p.s ≤ 40 ∧ 200 ≤ p.v) ∨ p.v ≤ 50 := by
  obtain ⟨h1, h2, h3⟩ := hp
  simp only [excludedByMasks, decide_eq_true_eq]
  omega
theorem nonWhiteBlackMask_getElem? (hsvBox : Image) (i : Nat) (p : Pixel)
    (hi : hsvBox[i]? = some p) :
    (nonWhiteBlackMask hsvBox)[i]? = some (if excludedByMasks p then 0 else 255) := by
  rw [nonWhiteBlackMask_eq_map, List.getElem?_map, hi]
  rfl

theorem selected_map (src : Image) (f : Pixel → Nat) :
    selected src (src.map f) = src.filter fun p => decide (f p ≠ 0) := by
  simp only [selected, List.zip_map_right, List.filter_map, List.map_map]
  induction src with
  | nil => rfl
  | cons p rest ih =>
    by_cases hp : f p = 0
    · simp [List.filter_cons, hp, Function.comp] at ih ⊢
      exact ih
    · simp [List.filter_cons, hp, Function.comp] at ih ⊢
      exact ih

theorem average_replicate (n : Nat) (p : Pixel) (hn : n ≠ 0) :
    average (List.replicate n p) = ⟨p.h, p.s, p.v, 0⟩ := by
  have hq : (n : ℚ) ≠ 0 := Nat.cast_ne_zero.mpr hn
  simp only [average, List.length_replicate, if_neg hn, List.map_replicate, List.sum_replicate,
    smul_eq_mul, Nat.cast_mul]
  congr 1 <;> field_simp

/-- C4 as the code has it: the bounds of `inRange` are inclusive, so a valid
pixel is left out of the averaging set exactly when saturation ≤ 40 and
value ≥ 200, or value ≤ 50.  Its entry of the inverted mask is then 0 and
otherwise 255, the mean is taken over the pixels with a non-zero entry, and
the boundary pixels (saturation 40 with value 200, and value 50) are left
out. -/
theorem nonWhiteBlackMask_excludes (hsvBox : Image) (i : Nat) (p : Pixel)
    (hi : hsvBox[i]? = some p) (hp : p.valid) :
    ((nonWhiteBlackMask hsvBox)[i]? = some 0 ↔ (p.s ≤ 40 ∧ 200 ≤ p.v) ∨ p.v ≤ 50)
    ∧ ((nonWhiteBlackMask hsvBox)[i]? = some 255 ↔ ¬ ((p.s ≤ 40 ∧ 200 ≤ p.v) ∨ p.v ≤ 50))
    ∧ meanHSV hsvBox = average (selected hsvBox (nonWhiteBlackMask hsvBox))
    ∧ ((∀ q ∈ hsvBox, q.valid) → meanHSV hsvBox
        = average (hsvBox.filter fun q => decide (¬ ((q.s ≤ 40 ∧ 200 ≤ q.v) ∨ q.v ≤ 50))))
    ∧ (p.s = 40 ∧ p.v = 200 → (nonWhiteBlackMask hsvBox)[i]? = some 0)
    ∧ (p.v = 50 → (nonWhiteBlackMask hsvBox)[i]? = some 0) := by
  have hm := nonWhiteBlackMask_getElem? hsvBox i p hi
  have hx := excludedByMasks_valid p hp
  have h0 : (nonWhiteBlackMask hsvBox)[i]? = some 0 ↔ (p.s ≤ 40 ∧ 200 ≤ p.v) ∨ p.v ≤ 50 := by
    rw [hm, ← hx]
    cases excludedByMasks p <;> simp
  refine ⟨h0, ?_, ?_, ?_, ?_, ?_⟩
  · rw [hm, ← hx]
    cases excludedByMasks p <;> simp
  · simp only [meanHSV, mean, nonWhiteBlackMask_eq_map, selected_copyTo_map, selected_map]
  · intro hall
    rw [meanHSV_eq_average]
    congr 1
    apply List.filter_congr
    intro q hq
    have := excludedByMasks_valid q (hall q hq)
    cases hq : excludedByMasks q <;> simp [hq] at this ⊢ <;> omega
  · rintro ⟨a, b⟩
    exact h0.mpr (by omega)
  · intro a
    exact h0.mpr (by omega)
theorem getElem?_replicate_append_zero {α : Type} (a : Nat) (p : α) (l : List α) (ha : 0 < a) :
    (List.replicate a p ++ l)[0]? = some p := by
  rw [List.getElem?_append_left (by simpa using ha), List.getElem?_replicate, if_pos ha]

theorem getElem?_replicate_append_mid {α : Type} (a b : Nat) (p q : α) (l : List α)
    (hb : 0 < b) : (List.replicate a p ++ (List.replicate b q ++ l))[a]? = some q := by
  rw [List.getElem?_append_right (by simp)]
  simp only [List.length_replicate, Nat.sub_self]
  exact getElem?_replicate_append_zero b q l hb

theorem filter_three_runs {α : Type} (f : α → Bool) (a b c : Nat) (p q r : α)
    (hp : f p = false) (hq : f q = false) (hr : f r = true) :
    (List.replicate a p ++ (List.replicate b q ++ List.replicate c r)).filter f
      = List.replicate c r := by
  simp only [List.filter_append, List.filter_replicate, hp, hq, hr]
  simp

theorem boundaryBox_getElem?_zero : boundaryBox[0]? = some ⟨10, 40, 200⟩ :=
  getElem?_replicate_append_zero 10000 _ _ (by decide)

theorem boundaryBox_getElem?_mid : boundaryBox[10000]? = some ⟨10, 100, 50⟩ :=
  getElem?_replicate_append_mid 10000 10000 _ _ _ (by decide)

theorem boundaryBox_valid : ∀ q ∈ boundaryBox, q.valid := by
  intro q hq
  simp only [boundaryBox, List.mem_append, List.mem_replicate] at hq
  rcases hq with ⟨_, rfl⟩ | ⟨_, rfl⟩ | ⟨_, rfl⟩ <;> simp [Pixel.valid]

theorem meanHSV_boundaryBox : meanHSV boundaryBox = ⟨20, 100, 100, 0⟩ := by
  have e : (boundaryBox.filter fun p => !excludedByMasks p)
      = List.replicate 20000 ⟨20, 100, 100⟩ :=
    filter_three_runs _ 10000 10000 20000 _ _ _ (by decide) (by decide) (by decide)
  rw [meanHSV_eq_average, e, average_replicate _ _ (by decide)]
  simp

theorem nonWhiteBlackMask_excludes_witness :
    (nonWhiteBlackMask boundaryBox)[0]? = some 0
    ∧ meanHSV boundaryBox = average (selected boundaryBox (nonWhiteBlackMask boundaryBox)) :=
  have t := nonWhiteBlackMask_excludes boundaryBox 0 ⟨10, 40, 200⟩ boundaryBox_getElem?_zero
    (by simp [Pixel.valid])
  ⟨t.2.2.2.2.1 ⟨rfl, rfl⟩, t.2.2.1⟩

/-- C4 fails as stated: in a box of valid pixels, a pixel with saturation 40
and value 200 and a pixel with value 50 are not excluded by the rule as worded
(saturation < 40 and value > 200, or value < 50), yet their entries of the
inverted mask are 0 and they do not enter the mean, which is that of the other
pixels alone. -/
theorem specExcluded_fails_at_boundary :
    boundaryBox.length = 40000 ∧ (∀ q ∈ boundaryBox, q.valid)
    ∧ boundaryBox[0]? = some ⟨10, 40, 200⟩ ∧ ¬ specExcluded ⟨10, 40, 200⟩
    ∧ (nonWhiteBlackMask boundaryBox)[0]? = some 0
    ∧ boundaryBox[10000]? = some ⟨10, 100, 50⟩ ∧ ¬ specExcluded ⟨10, 100, 50⟩
    ∧ (nonWhiteBlackMask boundaryBox)[10000]? = some 0
    ∧ meanHSV boundaryBox = ⟨20, 100, 100, 0⟩ := by
  refine ⟨?_, boundaryBox_valid, boundaryBox_getElem?_zero, ?_, ?_,
    boundaryBox_getElem?_mid, ?_, ?_, meanHSV_boundaryBox⟩
  · simp only [boundaryBox, List.length_append, List.length_replicate]
  · simp [specExcluded]
  · rw [nonWhiteBlackMask_getElem? _ _ _ boundaryBox_getElem?_zero]
    rfl
  · simp [specExcluded]
  · rw [nonWhiteBlackMask_getElem? _ _ _ boundaryBox_getElem?_mid]
    rfl

theorem roiInside_of_fits (f : FrameData) (hf : f.fits) :
    roiInside f.rows f.cols
      ⟨(centralBoxOrigin f.cols f.rows boxSize).1, (centralBoxOrigin f.cols f.rows boxSize).2,
        boxSize, boxSize⟩ = true := by
  obtain ⟨hc, hr⟩ := hf
  simp only [boxSize] at hc hr
  have ex : Int.tdiv (f.cols - 200) 2 = (f.cols - 200) / 2 :=
    Int.tdiv_eq_ediv (by omega) (by decide)
  have ey : Int.tdiv (f.rows - 200) 2 = (f.rows - 200) / 2 :=
    Int.tdiv_eq_ediv (by omega) (by decide)
  simp only [centralBoxOrigin, roiInside, boxSize, ex, ey, decide_eq_true_eq]
  refine ⟨by omega, by omega, by omega, by omega, by omega, by omega⟩

theorem loopBody_of_fits (s : LoopState) (f : FrameData) (hf : f.fits) :
    loopBody s f = some
      (⟨(frameRateStep s.frame_id s.start f).1, (frameRateStep s.frame_id s.start f).2.1,
          (detectionStep s.last_detection_time f).1⟩,
        (detectionStep s.last_detection_time f).2 ++ (frameRateStep s.frame_id s.start f).2.2) := by
  simp only [loopBody, roiInside_of_fits f hf, if_true]

theorem ranDetection_append (a b : List Output) :
    ranDetection (a ++ b) = (ranDetection a || ranDetection b) := by
  simp [ranDetection, List.any_append]

theorem ranDetection_frameRateStep (frame_id : Int) (start : timeval) (f : FrameData) :
    ranDetection (frameRateStep frame_id start f).2.2 = false := by
  unfold frameRateStep
  simp only []
  split <;> simp [ranDetection]

theorem ranDetection_detectionStep (last : ℚ) (f : FrameData) :
    ranDetection (detectionStep last f).2 = decide (currentTime f.clock - last ≥ 1) := by
  unfold detectionStep
  simp only []
  split <;> rename_i h <;> simp [ranDetection, h]

theorem last_detectionStep (last : ℚ) (f : FrameData) :
    (detectionStep last f).1
      = if currentTime f.clock - last ≥ 1 then currentTime f.clock else last := by
  unfold detectionStep
  simp only []
  split <;> rfl

theorem average_nil : average [] = ⟨0, 0, 0, 0⟩ := by
  simp [average]

theorem detectColor_zero : detectColor ⟨0, 0, 0, 0⟩ = "Gray" := by
  have h := detectColor_ofInts 0 0 0
  simp only [Scalar.ofInts, Int.cast_zero] at h
  rw [h]
  decide

/-- C6 as the code has it: there is no empty case.  When every pixel of the
box is excluded by the masks (as every valid pixel with saturation < 40 and
value > 200 is), every entry of the inverted mask is 0 and the mean is the
zero scalar.  The iteration still completes; when the throttle fires
`detectColor` is applied to that mean and the label Gray is printed, and when
it does not fire no colour is printed. -/
theorem all_excluded_gives_gray (s : LoopState) (f : FrameData) (hf : f.fits)
    (hex : ∀ p ∈ f.hsvBox, excludedByMasks p = true) :
    (∀ p : Pixel, p.valid → p.s < 40 → 200 < p.v → excludedByMasks p = true)
    ∧ (∀ m ∈ nonWhiteBlackMask f.hsvBox, m = 0)
    ∧ meanHSV f.hsvBox = ⟨0, 0, 0, 0⟩
    ∧ detectColor (meanHSV f.hsvBox) = "Gray"
    ∧ ∃ s1 out, loopBody s f = some (s1, out)
        ∧ (currentTime f.clock - s.last_detection_time ≥ 1 →
            out.head? = some (Output.detectedColor "Gray"))
        ∧ (currentTime f.clock - s.last_detection_time < 1 → ranDetection out = false) := by
  have hmean : meanHSV f.hsvBox = ⟨0, 0, 0, 0⟩ := by
    rw [meanHSV_eq_average]
    have : (f.hsvBox.filter fun p => !excludedByMasks p) = [] := by
      rw [List.filter_eq_nil_iff]
      intro p hp
      simp [hex p hp]
    rw [this, average_nil]
  refine ⟨?_, ?_, hmean, by rw [hmean, detectColor_zero], ?_⟩
  · intro p hp h1 h2
    rw [excludedByMasks_valid p hp]
    omega
  · intro m hm
    rw [nonWhiteBlackMask_eq_map, List.mem_map] at hm
    obtain ⟨p, hp, rfl⟩ := hm
    simp [hex p hp]
  · refine ⟨_, _, loopBody_of_fits s f hf, ?_, ?_⟩
    · intro ht
      simp only [detectionStep, if_pos ht, hmean, detectColor_zero, List.cons_append,
        List.head?_cons]
    · intro ht
      rw [ranDetection_append, ranDetection_frameRateStep, ranDetection_detectionStep]
      simp only [Bool.or_false, decide_eq_false_iff_not, not_le]
      exact ht

theorem whiteFrame_fits : whiteFrame.fits := by
  unfold FrameData.fits whiteFrame boxSize
  decide

theorem whiteFrame_excluded : ∀ p ∈ whiteFrame.hsvBox, excludedByMasks p = true := by
  intro p hp
  simp only [whiteFrame, List.mem_replicate] at hp
  rw [hp.2]
  decide

theorem all_excluded_gives_gray_witness :
    whiteFrame.fits ∧ (∀ p ∈ whiteFrame.hsvBox, excludedByMasks p = true)
    ∧ meanHSV whiteFrame.hsvBox = ⟨0, 0, 0, 0⟩
    ∧ detectColor (meanHSV whiteFrame.hsvBox) = "Gray" :=
  have t := all_excluded_gives_gray (initialState ⟨1700000000, 0⟩) whiteFrame whiteFrame_fits
    whiteFrame_excluded
  ⟨whiteFrame_fits, whiteFrame_excluded, t.2.2.1, t.2.2.2.1⟩

/-- C6 fails as stated: on the first iteration, with a frame whose central box
is all white, every pixel is excluded, and the iteration prints the colour
Gray: `detectColor` is applied to the mean taken over no pixel. -/
theorem white_box_prints_gray :
    whiteFrame.hsvBox.length = 40000
    ∧ (∀ p ∈ whiteFrame.hsvBox, p.valid ∧ p.s < 40 ∧ 200 < p.v)
    ∧ selected (copyTo whiteFrame.hsvBox (nonWhiteBlackMask whiteFrame.hsvBox))
        (nonWhiteBlackMask whiteFrame.hsvBox) = []
    ∧ loopBody (initialState ⟨1700000000, 0⟩) whiteFrame
        = some (⟨1, ⟨1700000000, 0⟩, 1700000000 + 1 / 4⟩, [Output.detectedColor "Gray"]) := by
  refine ⟨by simp only [whiteFrame, List.length_replicate], ?_, ?_, ?_⟩
  · intro p hp
    simp only [whiteFrame, List.mem_replicate] at hp
    rw [hp.2]
    simp [Pixel.valid]
  · rw [nonWhiteBlackMask_eq_map, selected_copyTo_map, List.filter_eq_nil_iff]
    intro p hp
    simp [whiteFrame_excluded p hp]
  · have hmean : meanHSV whiteFrame.hsvBox = ⟨0, 0, 0, 0⟩ := by
      rw [meanHSV_eq_average]
      have : (whiteFrame.hsvBox.filter fun p => !excludedByMasks p) = [] := by
        rw [List.filter_eq_nil_iff]
        intro p hp
        simp [whiteFrame_excluded p hp]
      rw [this, average_nil]
    have hclock : currentTime whiteFrame.clock = 1700000000 + 1 / 4 := by
      simp only [currentTime, whiteFrame]
      norm_num
    have hcont : whiteFrame.contours = [] := rfl
    rw [loopBody_of_fits _ _ whiteFrame_fits]
    simp only [initialState, detectionStep, frameRateStep, hclock, hmean, detectColor_zero,
      hcont, identifyShapes]
    norm_num

theorem reportedFrameRate_append (a b : List Output) :
    reportedFrameRate (a ++ b) = (reportedFrameRate a || reportedFrameRate b) := by
  simp [reportedFrameRate, List.any_append]

theorem reportedFrameRate_detectionStep (last : ℚ) (f : FrameData) :
    reportedFrameRate (detectionStep last f).2 = false := by
  unfold detectionStep
  simp only []
  split
  · simp [reportedFrameRate]
  · simp [reportedFrameRate]

theorem reportedFrameRate_frameRateStep (frame_id : Int) (start : timeval) (f : FrameData) :
    reportedFrameRate (frameRateStep frame_id start f).2.2 = decide (frame_id + 1 ≥ 30) := by
  unfold frameRateStep
  simp only []
  split <;> rename_i h <;> simp [reportedFrameRate, h]

theorem frame_id_frameRateStep (frame_id : Int) (start : timeval) (f : FrameData) :
    (frameRateStep frame_id start f).1 = if frame_id + 1 ≥ 30 then 0 else frame_id + 1 := by
  unfold frameRateStep
  simp only []
  split <;> rfl

/-- What one iteration does to the state and which lines it prints, for a
frame that is at least as large as the central box. -/
theorem loopBody_spec (s : LoopState) (f : FrameData) (hf : f.fits) :
    ∃ s1 out, loopBody s f = some (s1, out)
      ∧ ranDetection out = decide (currentTime f.clock - s.last_detection_time ≥ 1)
      ∧ s1.last_detection_time
          = (if currentTime f.clock - s.last_detection_time ≥ 1 then currentTime f.clock
              else s.last_detection_time)
      ∧ reportedFrameRate out = decide (s.frame_id + 1 ≥ 30)
      ∧ s1.frame_id = (if s.frame_id + 1 ≥ 30 then 0 else s.frame_id + 1) := by
  refine ⟨_, _, loopBody_of_fits s f hf, ?_, ?_, ?_, ?_⟩
  · rw [ranDetection_append, ranDetection_frameRateStep, ranDetection_detectionStep,
      Bool.or_false]
  · exact last_detectionStep _ _
  · rw [reportedFrameRate_append, reportedFrameRate_detectionStep,
      reportedFrameRate_frameRateStep, Bool.false_or]
  · exact frame_id_frameRateStep _ _ _

theorem mainLoop_cons (s s1 : LoopState) (f : FrameData) (out : List Output)
    (rest : List (Option FrameData)) (h : loopBody s f = some (s1, out)) :
    mainLoop s (some f :: rest) = ((mainLoop s1 rest).1, out :: (mainLoop s1 rest).2) := by
  simp only [mainLoop, h]

theorem detectionTimes_cons (f : FrameData) (frames : List FrameData) (out : List Output)
    (outs : List (List Output)) :
    detectionTimes (f :: frames) (out :: outs)
      = if ranDetection out = true then currentTime f.clock :: detectionTimes frames outs
        else detectionTimes frames outs := by
  simp only [detectionTimes, List.zip_cons_cons, List.filter_cons]
  split <;> simp

theorem throttle_run (frames : List FrameData) :
    ∀ s : LoopState, (∀ f ∈ frames, f.fits) →
      (mainLoop s (frames.map some)).2.length = frames.length
      ∧ List.Pairwise (fun a b : ℚ => 1 ≤ b - a)
          (detectionTimes frames (mainLoop s (frames.map some)).2)
      ∧ ∀ d ∈ detectionTimes frames (mainLoop s (frames.map some)).2,
          1 ≤ d - s.last_detection_time ∧ ∃ f ∈ frames, currentTime f.clock = d := by
  induction frames with
  | nil =>
    intro s _
    simp [mainLoop, detectionTimes]
  | cons f rest ih =>
    intro s hfit
    obtain ⟨s1, out, hstep, hran, hlast, -, -⟩ := loopBody_spec s f (hfit f (by simp))
    obtain ⟨ih1, ih2, ih3⟩ := ih s1 (fun g hg => hfit g (by simp [hg]))
    rw [List.map_cons, mainLoop_cons s s1 f out _ hstep]
    simp only [List.length_cons, ih1, detectionTimes_cons, true_and]
    by_cases ht : currentTime f.clock - s.last_detection_time ≥ 1
    · rw [if_pos ht] at hlast
      have hr : ranDetection out = true := by rw [hran]; exact decide_eq_true ht
      rw [if_pos hr]
      refine ⟨List.pairwise_cons.mpr ⟨fun d hd => ?_, ih2⟩, fun d hd => ?_⟩
      · have := (ih3 d hd).1
        rw [hlast] at this
        exact this
      · rcases List.mem_cons.mp hd with rfl | hd
        · exact ⟨ht, f, by simp, rfl⟩
        · obtain ⟨h1, g, hg, hgd⟩ := ih3 d hd
          rw [hlast] at h1
          exact ⟨by linarith, g, by simp [hg], hgd⟩
    · rw [if_neg ht] at hlast
      have hr : ¬ ranDetection out = true := by rw [hran]; simpa using ht
      rw [if_neg hr]
      refine ⟨ih2, fun d hd => ?_⟩
      obtain ⟨h1, g, hg, hgd⟩ := ih3 d hd
      rw [hlast] at h1
      exact ⟨h1, g, by simp [hg], hgd⟩

theorem throttle_next_run (pre : List FrameData) (f : FrameData) :
    ∀ s : LoopState, (∀ g ∈ pre, g.fits) → f.fits →
      (∀ g ∈ pre, currentTime g.clock - s.last_detection_time < 1) →
      1 ≤ currentTime f.clock - s.last_detection_time →
      detectionTimes (pre ++ [f]) (mainLoop s ((pre ++ [f]).map some)).2
        = [currentTime f.clock] := by
  induction pre with
  | nil =>
    intro s _ hf _ ht
    obtain ⟨s1, out, hstep, hran, -, -, -⟩ := loopBody_spec s f hf
    have hr : ranDetection out = true := by rw [hran]; exact decide_eq_true ht
    rw [List.nil_append, List.map_cons, List.map_nil, mainLoop_cons s s1 f out _ hstep]
    simp only [mainLoop, detectionTimes_cons, hr, if_true]
    simp [detectionTimes]
  | cons g rest ih =>
    intro s hfit hf hpre ht
    obtain ⟨s1, out, hstep, hran, hlast, -, -⟩ := loopBody_spec s g (hfit g (by simp))
    have hg : ¬ currentTime g.clock - s.last_detection_time ≥ 1 :=
      not_le.mpr (hpre g (by simp))
    rw [if_neg hg] at hlast
    have hr : ¬ ranDetection out = true := by rw [hran]; simpa using hg
    rw [List.cons_append, List.map_cons, mainLoop_cons s s1 g out _ hstep]
    simp only [detectionTimes_cons, if_neg hr]
    apply ih s1 (fun k hk => hfit k (by simp [hk])) hf
    · intro k hk
      rw [hlast]
      exact hpre k (by simp [hk])
    · rw [hlast]
      exact ht
theorem classificationLines_append (a b : List Output) :
    classificationLines (a ++ b) = classificationLines a ++ classificationLines b := by
  simp [classificationLines]

theorem classificationLines_frameRateStep (frame_id : Int) (start : timeval) (f : FrameData) :
    classificationLines (frameRateStep frame_id start f).2.2 = [] := by
  unfold frameRateStep
  simp only []
  split <;> simp [classificationLines]

theorem classificationLines_detectionStep (last : ℚ) (f : FrameData) :
    classificationLines (detectionStep last f).2
      = if currentTime f.clock - last ≥ 1 then classificationOf f else [] := by
  have keep : ∀ l : List ShapeRecord,
      classificationLines (l.map Output.detectedShape) = l.map Output.detectedShape := by
    intro l
    induction l with
    | nil => rfl
    | cons r rest ih =>
      simp only [classificationLines, List.map_cons, List.filter_cons] at ih ⊢
      rw [ih]
      rfl
  have hcons : ∀ (name : String) (l : List Output),
      classificationLines (Output.detectedColor name :: l)
        = Output.detectedColor name :: classificationLines l := by
    intro name l
    simp [classificationLines, List.filter_cons]
  unfold detectionStep
  simp only []
  split
  · rw [hcons, keep]
    simp only [classificationOf, identifyShapes, List.map_map]
    rfl
  · rfl

theorem classificationLines_of_loopBody (s s1 : LoopState) (f : FrameData) (out : List Output)
    (hf : f.fits) (h : loopBody s f = some (s1, out)) :
    classificationLines out
      = if currentTime f.clock - s.last_detection_time ≥ 1 then classificationOf f else [] := by
  rw [loopBody_of_fits s f hf] at h
  simp only [Option.some.injEq, Prod.mk.injEq] at h
  rw [← h.2, classificationLines_append, classificationLines_frameRateStep, List.append_nil,
    classificationLines_detectionStep]

theorem classification_run (frames : List FrameData) :
    ∀ s : LoopState, (∀ f ∈ frames, f.fits) →
      ∀ (i : Nat) (f : FrameData) (out : List Output), frames[i]? = some f →
        (mainLoop s (frames.map some)).2[i]? = some out →
        classificationLines out = if ranDetection out = true then classificationOf f else [] := by
  induction frames with
  | nil =>
    intro s _ i f out hi
    simp at hi
  | cons g rest ih =>
    intro s hfit i f out hi ho
    obtain ⟨s1, o, hstep, hran, -, -, -⟩ := loopBody_spec s g (hfit g (by simp))
    rw [List.map_cons, mainLoop_cons s s1 g o _ hstep] at ho
    cases i with
    | zero =>
      simp only [List.getElem?_cons_zero, Option.some.injEq] at hi ho
      subst hi
      subst ho
      rw [classificationLines_of_loopBody s s1 g o (hfit g (by simp)) hstep, hran]
      simp only [decide_eq_true_eq]
    | succ j =>
      simp only [List.getElem?_cons_succ] at hi ho
      exact ih s1 (fun k hk => hfit k (by simp [hk])) j f out hi ho

/-- C7: the throttle.  An iteration runs the classification exactly when its
timestamp is at least 1.0 after `last_detection_time`; it then prints the
colour line and one shape record for each contour and sets
`last_detection_time` to the timestamp, and otherwise it prints no colour and
no shape line and leaves `last_detection_time` unchanged.  Over any sequence of
frames, every iteration prints either the whole classification of its frame or
none of it, any two classification runs are at least 1.0 apart (and the first
at least 1.0 after the initial `last_detection_time`); over frames whose
timestamps span less than 1.0 there is at most one run; and after frames that
come less than 1.0 after the last run, the first frame at least 1.0 after it
runs the classification again. -/
theorem throttle_one_second (s : LoopState) (frames : List FrameData)
    (hfit : ∀ f ∈ frames, f.fits) :
    (∀ f ∈ frames, ∀ s0 : LoopState, ∃ s1 out, loopBody s0 f = some (s1, out)
      ∧ (ranDetection out = true ↔ currentTime f.clock - s0.last_detection_time ≥ 1)
      ∧ (ranDetection out = true → s1.last_detection_time = currentTime f.clock)
      ∧ (ranDetection out = false → s1.last_detection_time = s0.last_detection_time)
      ∧ (currentTime f.clock - s0.last_detection_time ≥ 1 →
          classificationLines out = classificationOf f)
      ∧ (currentTime f.clock - s0.last_detection_time < 1 → classificationLines out = []))
    ∧ (mainLoop s (frames.map some)).2.length = frames.length
    ∧ List.Pairwise (fun a b : ℚ => 1 ≤ b - a)
        (detectionTimes frames (mainLoop s (frames.map some)).2)
    ∧ (∀ d ∈ detectionTimes frames (mainLoop s (frames.map some)).2,
        1 ≤ d - s.last_detection_time)
    ∧ ((∀ f ∈ frames, ∀ g ∈ frames, currentTime g.clock - currentTime f.clock < 1) →
        (detectionTimes frames (mainLoop s (frames.map some)).2).length ≤ 1)
    ∧ (∀ (pre : List FrameData) (f : FrameData), frames = pre ++ [f] →
        (∀ g ∈ pre, currentTime g.clock - s.last_detection_time < 1) →
        1 ≤ currentTime f.clock - s.last_detection_time →
        detectionTimes frames (mainLoop s (frames.map some)).2 = [currentTime f.clock])
    ∧ (∀ (i : Nat) (f : FrameData) (out : List Output), frames[i]? = some f →
        (mainLoop s (frames.map some)).2[i]? = some out →
        classificationLines out
          = if ranDetection out = true then classificationOf f else []) := by
  obtain ⟨h1, h2, h3⟩ := throttle_run frames s hfit
  refine ⟨?_, h1, h2, fun d hd => (h3 d hd).1, ?_, ?_, classification_run frames s hfit⟩
  · intro f hf s0
    obtain ⟨s1, out, hstep, hran, hlast, -, -⟩ := loopBody_spec s0 f (hfit f hf)
    have hlines := classificationLines_of_loopBody s0 s1 f out (hfit f hf) hstep
    refine ⟨s1, out, hstep, ?_, ?_, ?_, ?_, ?_⟩
    · rw [hran, decide_eq_true_iff]
    · intro hr
      rw [hran, decide_eq_true_iff] at hr
      rw [hlast, if_pos hr]
    · intro hr
      rw [hran, decide_eq_false_iff_not] at hr
      rw [hlast, if_neg hr]
    · intro ht
      rw [hlines, if_pos ht]
    · intro ht
      rw [hlines, if_neg (not_le.mpr ht)]
  · intro hspan
    generalize hdt : detectionTimes frames (mainLoop s (frames.map some)).2 = dt at h2 h3
    match dt, h2, h3 with
    | [], _, _ => simp
    | [_], _, _ => simp
    | a :: b :: _, h2, h3 =>
      exfalso
      have hab : 1 ≤ b - a := (List.pairwise_cons.mp h2).1 b (by simp)
      obtain ⟨-, fa, hfa, rfl⟩ := h3 a (by simp)
      obtain ⟨-, fb, hfb, rfl⟩ := h3 b (by simp)
      have := hspan fa hfa fb hfb
      linarith
  · intro pre f hfr hpre ht
    subst hfr
    exact throttle_next_run pre f s (fun g hg => hfit g (by simp [hg])) (hfit f (by simp))
      hpre ht

theorem frameAt_fits (clock : timeval) : (frameAt clock).fits := by
  constructor <;> simp only [frameAt, boxSize] <;> decide

theorem sampleFrames_fit : ∀ f ∈ sampleFrames, f.fits := by
  intro f hf
  simp only [sampleFrames, List.mem_cons, List.mem_singleton, List.not_mem_nil, or_false] at hf
  rcases hf with rfl | rfl | rfl <;> exact frameAt_fits _

theorem sampleFrames_detectionTimes :
    detectionTimes sampleFrames
      (mainLoop (initialState ⟨1700000000, 0⟩) (sampleFrames.map some)).2
      = [1700000000 + 1 / 4, 1700000001 + 3 / 10] := by
  have c1 : currentTime ⟨1700000000, 250000⟩ = 1700000000 + 1 / 4 := by
    simp only [currentTime]; norm_num
  have c2 : currentTime ⟨1700000000, 750000⟩ = 1700000000 + 3 / 4 := by
    simp only [currentTime]; norm_num
  have c3 : currentTime ⟨1700000001, 300000⟩ = 1700000001 + 3 / 10 := by
    simp only [currentTime]; norm_num
  simp only [sampleFrames, List.map_cons, List.map_nil, mainLoop, loopBody_of_fits _ _ (frameAt_fits _),
    detectionTimes_cons, ranDetection_append, ranDetection_frameRateStep,
    ranDetection_detectionStep, last_detectionStep, initialState, Bool.or_false]
  simp only [frameAt, c1, c2, c3]
  norm_num [detectionTimes]

theorem classificationOf_frameAt (clock : timeval) :
    classificationOf (frameAt clock)
      = [Output.detectedColor "Red", Output.detectedShape ⟨"Square", "Good part"⟩] := by
  have hc : detectColor ⟨20, 100, 100, 0⟩ = "Red" := by
    have h := detectColor_ofInts 20 100 100
    simp only [Scalar.ofInts, Int.cast_ofNat] at h
    rw [h]
    decide
  have h1 : circularity 10000 400 = Dbl.fin (M_PI / 4) := by
    unfold circularity Dbl.div
    rw [if_neg (by norm_num)]
    congr 1
    ring
  have h2 : (Dbl.fin (M_PI / 4)).gt (9 / 10) = false := by
    simp only [Dbl.gt, M_PI, decide_eq_false_iff_not]
    norm_num
  simp only [classificationOf, frameAt, meanHSV_boundaryBox, hc, List.map_cons, List.map_nil,
    h1, classifyShape, h2]
  simp

theorem sampleFrames_outputs :
    (mainLoop (initialState ⟨1700000000, 0⟩) (sampleFrames.map some)).2
      = [[Output.detectedColor "Red", Output.detectedShape ⟨"Square", "Good part"⟩], [],
         [Output.detectedColor "Red", Output.detectedShape ⟨"Square", "Good part"⟩]] := by
  have c1 : currentTime ⟨1700000000, 250000⟩ = 1700000000 + 1 / 4 := by
    simp only [currentTime]; norm_num
  have c2 : currentTime ⟨1700000000, 750000⟩ = 1700000000 + 3 / 4 := by
    simp only [currentTime]; norm_num
  have c3 : currentTime ⟨1700000001, 300000⟩ = 1700000001 + 3 / 10 := by
    simp only [currentTime]; norm_num
  have k1 : ∀ clock : timeval,
      Output.detectedColor (detectColor (meanHSV (frameAt clock).hsvBox))
        :: (identifyShapes (frameAt clock).contours).map Output.detectedShape
        = [Output.detectedColor "Red", Output.detectedShape ⟨"Square", "Good part"⟩] := by
    intro clock
    rw [← classificationOf_frameAt clock]
    simp [classificationOf, identifyShapes]
  have k2 : ∀ clock : timeval, (frameAt clock).clock = clock := fun _ => rfl
  simp only [sampleFrames, List.map_cons, List.map_nil, mainLoop,
    loopBody_of_fits _ _ (frameAt_fits _), detectionStep, frameRateStep, initialState, k1, k2,
    c1, c2, c3]
  norm_num

theorem throttle_one_second_witness :
    (∀ f ∈ sampleFrames, f.fits)
    ∧ (mainLoop (initialState ⟨1700000000, 0⟩) (sampleFrames.map some)).2.length = 3
    ∧ List.Pairwise (fun a b : ℚ => 1 ≤ b - a)
        (detectionTimes sampleFrames
          (mainLoop (initialState ⟨1700000000, 0⟩) (sampleFrames.map some)).2)
    ∧ detectionTimes sampleFrames
        (mainLoop (initialState ⟨1700000000, 0⟩) (sampleFrames.map some)).2
        = [1700000000 + 1 / 4, 1700000001 + 3 / 10]
    ∧ (mainLoop (initialState ⟨1700000000, 0⟩) (sampleFrames.map some)).2
        = [[Output.detectedColor "Red", Output.detectedShape ⟨"Square", "Good part"⟩], [],
           [Output.detectedColor "Red", Output.detectedShape ⟨"Square", "Good part"⟩]]
    ∧ (∀ (i : Nat) (f : FrameData) (out : List Output), sampleFrames[i]? = some f →
        (mainLoop (initialState ⟨1700000000, 0⟩) (sampleFrames.map some)).2[i]? = some out →
        classificationLines out
          = if ranDetection out = true then classificationOf f else []) :=
  have t := throttle_one_second (initialState ⟨1700000000, 0⟩) sampleFrames sampleFrames_fit
  ⟨sampleFrames_fit, t.2.1, t.2.2.1, sampleFrames_detectionTimes, sampleFrames_outputs,
    t.2.2.2.2.2.2⟩

theorem frame_counter_run (frames : List FrameData) :
    ∀ s : LoopState, (∀ f ∈ frames, f.fits) → 0 ≤ s.frame_id → s.frame_id < 30 →
      (mainLoop s (frames.map some)).2.length = frames.length
      ∧ (mainLoop s (frames.map some)).1.frame_id = (s.frame_id + (frames.length : Int)) % 30
      ∧ ∀ (i : Nat) (out : List Output), (mainLoop s (frames.map some)).2[i]? = some out →
          (reportedFrameRate out = true ↔ (s.frame_id + (i : Int) + 1) % 30 = 0) := by
  induction frames with
  | nil =>
    intro s _ h0 h30
    simp only [List.map_nil, mainLoop, List.length_nil, Nat.cast_zero, add_zero, true_and]
    refine ⟨by omega, fun i out hi => ?_⟩
    simp at hi
  | cons f rest ih =>
    intro s hfit h0 h30
    obtain ⟨s1, out, hstep, -, -, hrep, hid⟩ := loopBody_spec s f (hfit f (by simp))
    have h0' : 0 ≤ s1.frame_id := by rw [hid]; split <;> omega
    have h30' : s1.frame_id < 30 := by rw [hid]; split <;> omega
    obtain ⟨ih1, ih2, ih3⟩ := ih s1 (fun g hg => hfit g (by simp [hg])) h0' h30'
    rw [List.map_cons, mainLoop_cons s s1 f out _ hstep]
    refine ⟨by simp only [List.length_cons, ih1], ?_, ?_⟩
    · simp only [ih2, List.length_cons, Nat.cast_add, Nat.cast_one]
      rw [hid]
      split <;> omega
    · intro i o hi
      cases i with
      | zero =>
        simp only [List.getElem?_cons_zero, Option.some.injEq] at hi
        subst hi
        rw [hrep, decide_eq_true_iff]
        simp only [Nat.cast_zero]
        omega
      | succ j =>
        simp only [List.getElem?_cons_succ] at hi
        rw [ih3 j o hi, hid]
        simp only [Nat.cast_add, Nat.cast_one]
        split <;> omega

/-- C8: the frame-rate window.  From the initial state, after `n` completed
iterations `frame_id` is `n mod 30`, so `0 ≤ frame_id < 30`; an iteration
prints the frame-rate report exactly when its number (counted from 1) is a
multiple of 30, and the counter is back at 0 after exactly those iterations;
the counter and the window start have no influence on the classification
lines printed nor on `last_detection_time`. -/
theorem frame_counter_window (start : timeval) (frames : List FrameData)
    (hfit : ∀ f ∈ frames, f.fits) :
    (mainLoop (initialState start) (frames.map some)).2.length = frames.length
    ∧ (mainLoop (initialState start) (frames.map some)).1.frame_id
        = ((frames.length % 30 : Nat) : Int)
    ∧ (0 ≤ (mainLoop (initialState start) (frames.map some)).1.frame_id
        ∧ (mainLoop (initialState start) (frames.map some)).1.frame_id < 30)
    ∧ (∀ (i : Nat) (out : List Output),
        (mainLoop (initialState start) (frames.map some)).2[i]? = some out →
        (reportedFrameRate out = true ↔ (i + 1) % 30 = 0))
    ∧ (∀ k : Nat, k ≤ frames.length →
        ((mainLoop (initialState start) ((frames.take k).map some)).1.frame_id = 0
          ↔ k % 30 = 0))
    ∧ (∀ (id1 id2 : Int) (st1 st2 : timeval) (last : ℚ) (f : FrameData),
        (loopBody ⟨id1, st1, last⟩ f).map
            (fun x => (x.1.last_detection_time, classificationLines x.2))
          = (loopBody ⟨id2, st2, last⟩ f).map
            (fun x => (x.1.last_detection_time, classificationLines x.2))) := by
  obtain ⟨h1, h2, h3⟩ := frame_counter_run frames (initialState start) hfit (le_refl _)
    (show (0 : Int) < 30 by decide)
  simp only [initialState, zero_add] at h1 h2 h3
  simp only [initialState]
  refine ⟨h1, ?_, ?_, ?_, ?_, ?_⟩
  · rw [h2]; omega
  · rw [h2]; omega
  · intro i out hi
    rw [h3 i out hi]
    omega
  · intro k hk
    obtain ⟨-, g2, -⟩ := frame_counter_run (frames.take k) (initialState start)
      (fun f hf => hfit f (List.mem_of_mem_take hf)) (le_refl _)
      (show (0 : Int) < 30 by decide)
    simp only [initialState, zero_add, List.length_take, min_eq_left hk] at g2
    rw [g2]
    omega
  · intro id1 id2 st1 st2 last f
    simp only [loopBody]
    split
    · simp only [Option.map_some', classificationLines_append,
        classificationLines_frameRateStep]
    · rfl

theorem frame_counter_window_witness :
    (∀ f ∈ List.replicate 60 whiteFrame, f.fits)
    ∧ (mainLoop (initialState ⟨1700000000, 0⟩)
        ((List.replicate 60 whiteFrame).map some)).1.frame_id = 0
    ∧ (∀ (i : Nat) (out : List Output),
        (mainLoop (initialState ⟨1700000000, 0⟩)
          ((List.replicate 60 whiteFrame).map some)).2[i]? = some out →
        (reportedFrameRate out = true ↔ (i + 1) % 30 = 0)) :=
  have hfit : ∀ f ∈ List.replicate 60 whiteFrame, f.fits := fun f hf => by
    rw [(List.mem_replicate.mp hf).2]; exact whiteFrame_fits
  have t := frame_counter_window ⟨1700000000, 0⟩ (List.replicate 60 whiteFrame) hfit
  ⟨hfit, by simpa using t.2.1, t.2.2.2.1⟩

end PiCapture
